import Mathlib

/-!
Verification development for the I/O device-simulation core (`Driver_USB.py`).

The Python source is shallowly embedded: every class becomes a structure,
every method a pure function from the old state to the new state (plus its
return value).  Python `float` quantities carry no float-specific behaviour in
this module, so they are embedded as `ℚ`; Python `int` becomes `Int`/`Nat`;
Python dictionaries become association lists with unique keys manipulated only
through `dictLookup` / `dictInsert` / `dictPop`, which reproduce `d[k]`,
`d[k] = v` and `del d[k]` (first-match semantics, insertion position kept on
overwrite).  Wall-clock timestamps (`time.time()`) are an abstract `now : Nat`
threaded through the operations; only their set/unset state matters to the
properties below.  The probabilistic fault draw (`random.random() < p`) is an
explicit boolean parameter `fault`, exactly the injectable fault-decision
function the design notes call for.
-/

set_option maxHeartbeats 1000000

/-! ## Enums (`DeviceType`, `OperationType`, `DeviceStatus`, `SchedulingAlgorithm`) -/

inductive DeviceType
  | BLOQUE
  | CARACTER
deriving DecidableEq, Repr

inductive OperationType
  | LECTURA
  | ESCRITURA
  | CONTROL
  | BUSQUEDA
deriving DecidableEq, Repr

inductive DeviceStatus
  | DESCONECTADO
  | CONECTADO
  | OCUPADO
  | ERROR
  | EN_ESPERA
deriving DecidableEq, Repr

inductive SchedulingAlgorithm
  | FIFO
  | PRIORIDAD
  | TRABAJO_MAS_CORTO_PRIMERO
  | ROUND_ROBIN
deriving DecidableEq, Repr

/-! ## Python dictionaries as association lists -/

def dictLookup {β : Type} (k : String) : List (String × β) → Option β
  | [] => none
  | (k₁, v₁) :: rest => if k₁ = k then some v₁ else dictLookup k rest

def dictInsert {β : Type} (k : String) (v : β) : List (String × β) → List (String × β)
  | [] => [(k, v)]
  | (k₁, v₁) :: rest => if k₁ = k then (k, v) :: rest else (k₁, v₁) :: dictInsert k v rest

def dictPop {β : Type} (k : String) : List (String × β) → Option (β × List (String × β))
  | [] => none
  | (k₁, v₁) :: rest =>
      if k₁ = k then some (v₁, rest)
      else
        match dictPop k rest with
        | none => none
        | some (v₂, rest₂) => some (v₂, (k₁, v₁) :: rest₂)

theorem dictLookup_dictInsert {β : Type} (k : String) (v : β) (l : List (String × β)) :
    dictLookup k (dictInsert k v l) = some v := by
  induction l with
  | nil => simp [dictInsert, dictLookup]
  | cons p rest ih =>
      obtain ⟨k₁, v₁⟩ := p
      by_cases h : k₁ = k <;> simp [dictInsert, dictLookup, h, ih]

theorem mem_dictInsert {β : Type} {k : String} {v : β} :
    ∀ {l : List (String × β)} {p : String × β},
      p ∈ dictInsert k v l → p = (k, v) ∨ p ∈ l := by
  intro l
  induction l with
  | nil => intro p hp; simpa [dictInsert] using hp
  | cons q rest ih =>
      obtain ⟨k₁, v₁⟩ := q
      intro p hp
      by_cases h : k₁ = k
      · simp only [dictInsert, if_pos h, List.mem_cons] at hp
        rcases hp with hp | hp
        · exact Or.inl hp
        · exact Or.inr (List.mem_cons_of_mem _ hp)
      · simp only [dictInsert, if_neg h, List.mem_cons] at hp
        rcases hp with hp | hp
        · exact Or.inr (by simp [hp])
        · rcases ih hp with h₁ | h₁
          · exact Or.inl h₁
          · exact Or.inr (List.mem_cons_of_mem _ h₁)

theorem dictLookup_none_dictInsert {β : Type} {k : String} {l : List (String × β)}
    (h : dictLookup k l = none) (v : β) : dictInsert k v l = l ++ [(k, v)] := by
  induction l with
  | nil => simp [dictInsert]
  | cons p rest ih =>
      obtain ⟨k₁, v₁⟩ := p
      by_cases hk : k₁ = k
      · simp [dictLookup, hk] at h
      · simp only [dictLookup, if_neg hk] at h
        simp [dictInsert, hk, ih h]

theorem dictPop_append_single {β : Type} {k : String} {l : List (String × β)}
    (h : dictLookup k l = none) (v : β) : dictPop k (l ++ [(k, v)]) = some (v, l) := by
  induction l with
  | nil => simp [dictPop]
  | cons p rest ih =>
      obtain ⟨k₁, v₁⟩ := p
      by_cases hk : k₁ = k
      · simp [dictLookup, hk] at h
      · simp only [dictLookup, if_neg hk] at h
        simp [dictPop, hk, ih h]

/-! ## `BufferManager` (`Driver_USB.py` lines 446-487)

The per-operation `Buffer` object created inside `allocate_buffer` is built
with capacity `size_kb` and immediately fills it, and only its `size_kb` field
is ever read again (in `release_buffer`); it is therefore embedded as the
stored `Int` value of the map. -/

/-- Python `int(q)` applied to a rational: truncation toward zero. -/
def pyInt (q : ℚ) : Int := if 0 ≤ q then ⌊q⌋ else ⌈q⌉

/-- The conversion `size_kb = int(size_mb * 1024)` computed in `allocate_buffer`. -/
def mbToKb (size_mb : ℚ) : Int := pyInt (size_mb * 1024)

structure BufferManager where
  total_buffer_size_kb : Nat := 1024
  buffers : List (String × Int) := []
  used_buffer_kb : Int := 0
deriving DecidableEq, Repr

def allocate_buffer (size_mb : ℚ) (operation_id : String) (bm : BufferManager) :
    Bool × BufferManager :=
  let size_kb : Int := mbToKb size_mb
  if bm.used_buffer_kb + size_kb > (bm.total_buffer_size_kb : Int) then
    (false, bm)
  else
    (true, { bm with
      buffers := dictInsert operation_id size_kb bm.buffers,
      used_buffer_kb := bm.used_buffer_kb + size_kb })

def release_buffer (operation_id : String) (bm : BufferManager) : Bool × BufferManager :=
  match dictPop operation_id bm.buffers with
  | none => (false, bm)
  | some (size_kb, rest) =>
      (true, { bm with buffers := rest, used_buffer_kb := bm.used_buffer_kb - size_kb })

def get_buffer_usage (bm : BufferManager) : ℚ :=
  if 0 < bm.total_buffer_size_kb then
    ((bm.used_buffer_kb : ℚ) / (bm.total_buffer_size_kb : ℚ)) * 100
  else 0

/-! ## Sequences of pool calls (for the usage invariant) -/

inductive PoolCall
  | alloc (size_mb : ℚ) (operation_id : String)
  | release (operation_id : String)
deriving DecidableEq, Repr

def poolStep (bm : BufferManager) : PoolCall → BufferManager
  | .alloc size_mb operation_id => (allocate_buffer size_mb operation_id bm).2
  | .release operation_id => (release_buffer operation_id bm).2

/-- A fresh pool of capacity `cap` after a whole sequence of calls. -/
def runPool (cap : Nat) (calls : List PoolCall) : BufferManager :=
  calls.foldl poolStep { total_buffer_size_kb := cap }

/-- Request data sizes are positive by the data model; a call sequence is
admissible when every allocation size is nonnegative. -/
def sizeNonneg : PoolCall → Bool
  | .alloc size_mb _ => decide (0 ≤ size_mb)
  | .release _ => true

def sumSizes (l : List (String × Int)) : Int := (l.map Prod.snd).sum

/-- The pool invariant: stored sizes are nonnegative, the accounted usage
dominates the stored total, and usage never exceeds capacity. -/
def PoolInv (bm : BufferManager) : Prop :=
  (∀ p ∈ bm.buffers, 0 ≤ p.2) ∧ sumSizes bm.buffers ≤ bm.used_buffer_kb ∧
    bm.used_buffer_kb ≤ (bm.total_buffer_size_kb : Int)

theorem sumSizes_nonneg {l : List (String × Int)} (h : ∀ p ∈ l, 0 ≤ p.2) :
    0 ≤ sumSizes l := by
  induction l with
  | nil => simp [sumSizes]
  | cons p rest ih =>
      have h₁ := h p (List.mem_cons_self _ _)
      have h₂ : 0 ≤ sumSizes rest := ih fun q hq => h q (List.mem_cons_of_mem _ hq)
      simp only [sumSizes, List.map_cons, List.sum_cons] at *
      omega

theorem sumSizes_dictInsert_le {k : String} {v : Int} {l : List (String × Int)}
    (h : ∀ p ∈ l, 0 ≤ p.2) : sumSizes (dictInsert k v l) ≤ sumSizes l + v := by
  induction l with
  | nil => simp [dictInsert, sumSizes]
  | cons p rest ih =>
      obtain ⟨k₁, v₁⟩ := p
      have h₁ : (0 : Int) ≤ v₁ := h (k₁, v₁) (List.mem_cons_self _ _)
      have ih₁ := ih fun q hq => h q (List.mem_cons_of_mem _ hq)
      by_cases hk : k₁ = k
      · simp only [dictInsert, if_pos hk, sumSizes, List.map_cons, List.sum_cons]
        simp only [sumSizes] at *
        omega
      · simp only [dictInsert, if_neg hk, sumSizes, List.map_cons, List.sum_cons]
        simp only [sumSizes] at ih₁
        omega

theorem dictPop_sum_mem {k : String} :
    ∀ {l rest : List (String × Int)} {v : Int}, dictPop k l = some (v, rest) →
      sumSizes rest = sumSizes l - v ∧ (∀ p ∈ rest, p ∈ l) ∧ (k, v) ∈ l := by
  intro l
  induction l with
  | nil => intro rest v h; simp [dictPop] at h
  | cons p tail ih =>
      obtain ⟨k₁, v₁⟩ := p
      intro rest v h
      by_cases hk : k₁ = k
      · simp only [dictPop, if_pos hk, Option.some.injEq, Prod.mk.injEq] at h
        obtain ⟨hv, hr⟩ := h
        subst hv; subst hr; subst hk
        exact ⟨by simp [sumSizes], fun q hq => List.mem_cons_of_mem _ hq,
          List.mem_cons_self _ _⟩
      · rcases hpop : dictPop k tail with _ | ⟨v₂, rest₂⟩ <;>
          simp only [dictPop, if_neg hk, hpop, Option.some.injEq, Prod.mk.injEq] at h
        · exact absurd h (by simp)
        · obtain ⟨hv, hr⟩ := h
          subst hv
          obtain ⟨hsum, hmem, hentry⟩ := ih hpop
          refine ⟨?_, ?_, List.mem_cons_of_mem _ hentry⟩
          · rw [← hr]
            simp only [sumSizes, List.map_cons, List.sum_cons] at *
            omega
          · intro q hq
            rw [← hr] at hq
            rcases List.mem_cons.mp hq with hq | hq
            · exact List.mem_cons.mpr (Or.inl hq)
            · exact List.mem_cons_of_mem _ (hmem q hq)

theorem poolStep_total (bm : BufferManager) (c : PoolCall) :
    (poolStep bm c).total_buffer_size_kb = bm.total_buffer_size_kb := by
  cases c with
  | alloc s i =>
      simp only [poolStep, allocate_buffer]
      split <;> rfl
  | release i =>
      simp only [poolStep, release_buffer]
      rcases h : dictPop i bm.buffers with _ | ⟨v, rest⟩ <;> simp [h]

theorem poolStep_inv {bm : BufferManager} {c : PoolCall}
    (hinv : PoolInv bm) (hc : sizeNonneg c = true) : PoolInv (poolStep bm c) := by
  obtain ⟨hpos, hsum, hcap⟩ := hinv
  cases c with
  | alloc s i =>
      have hs : (0 : ℚ) ≤ s := by simpa [sizeNonneg] using hc
      have hkb : (0 : Int) ≤ mbToKb s := by
        have h1024 : (0 : ℚ) ≤ s * 1024 := by positivity
        simp only [mbToKb, pyInt, if_pos h1024]
        exact Int.le_floor.mpr (by exact_mod_cast h1024)
      simp only [poolStep, allocate_buffer]
      split
      · exact ⟨hpos, hsum, hcap⟩
      · rename_i hle
        dsimp only [PoolInv]
        refine ⟨?_, ?_, by omega⟩
        · intro p hp
          rcases mem_dictInsert hp with h₁ | h₁
          · simp [h₁, hkb]
          · exact hpos p h₁
        · have := sumSizes_dictInsert_le (k := i) (v := mbToKb s) hpos
          omega
  | release i =>
      simp only [poolStep, release_buffer]
      rcases h : dictPop i bm.buffers with _ | ⟨v, rest⟩
      · exact ⟨hpos, hsum, hcap⟩
      · obtain ⟨hsum₂, hmem, hentry⟩ := dictPop_sum_mem h
        have hv : (0 : Int) ≤ v := hpos (i, v) hentry
        dsimp only [PoolInv]
        refine ⟨fun p hp => hpos p (hmem p hp), by omega, by omega⟩

theorem runPool_inv (cap : Nat) (calls : List PoolCall)
    (h : ∀ c ∈ calls, sizeNonneg c = true) :
    PoolInv (runPool cap calls) := by
  suffices hgen : ∀ (bm : BufferManager), PoolInv bm →
      PoolInv (calls.foldl poolStep bm) by
    exact hgen _ ⟨by simp, by simp [sumSizes], by simp⟩
  induction calls with
  | nil => intro bm hbm; simpa using hbm
  | cons c rest ih =>
      intro bm hbm
      have hc := h c (List.mem_cons_self _ _)
      have hrest : ∀ c₁ ∈ rest, sizeNonneg c₁ = true :=
        fun c₁ hc₁ => h c₁ (List.mem_cons_of_mem _ hc₁)
      exact ih hrest _ (poolStep_inv hbm hc)

theorem runPool_total (cap : Nat) (calls : List PoolCall) :
    (runPool cap calls).total_buffer_size_kb = cap := by
  suffices hgen : ∀ (bm : BufferManager),
      (calls.foldl poolStep bm).total_buffer_size_kb = bm.total_buffer_size_kb by
    exact hgen _
  induction calls with
  | nil => intro bm; rfl
  | cons c rest ih =>
      intro bm
      rw [List.foldl_cons, ih, poolStep_total]

/-! ## Claim C3 and C4 theorems -/

/-- C3: `allocate_buffer(size, request_id)` succeeds iff
`used + size <= capacity` (with `size` the requested size converted to the
pool's KB unit, as the source does internally); on success it increases the
used amount by that size and records the mapping for the request id (the
resulting `buffers` map is exactly the old map with the binding inserted, so
`dictLookup` finds it by `dictLookup_dictInsert`); on failure it returns
`false` and leaves the pool state completely unchanged. -/
theorem C3_allocate_iff_and_frame (bm : BufferManager) (size_mb : ℚ)
    (operation_id : String) :
    ((allocate_buffer size_mb operation_id bm).1 = true ↔
      bm.used_buffer_kb + mbToKb size_mb ≤ (bm.total_buffer_size_kb : Int)) ∧
    allocate_buffer size_mb operation_id bm =
      (if bm.used_buffer_kb + mbToKb size_mb ≤ (bm.total_buffer_size_kb : Int) then
        (true, { bm with
          buffers := dictInsert operation_id (mbToKb size_mb) bm.buffers,
          used_buffer_kb := bm.used_buffer_kb + mbToKb size_mb })
      else (false, bm)) := by
  constructor
  · simp only [allocate_buffer]
    split <;> rename_i h <;> simp <;> omega
  · simp only [allocate_buffer]
    split <;> rename_i h
    · rw [if_neg (by omega)]
    · rw [if_pos (by omega)]

/-- C4: starting from a fresh pool of any capacity, after any (prefix of a)
sequence of `allocate_buffer`/`release_buffer` calls whose allocation sizes
are nonnegative (request data sizes are positive by the data model), the used
amount never exceeds the capacity and `get_buffer_usage` lies in `[0, 100]`
(being `0` when the capacity is `0`).  Quantifying over all call sequences
covers every prefix of any given sequence. -/
theorem C4_pool_usage_bounds (cap : Nat) (calls : List PoolCall)
    (h : ∀ c ∈ calls, sizeNonneg c = true) :
    (runPool cap calls).used_buffer_kb ≤ (cap : Int) ∧
    0 ≤ get_buffer_usage (runPool cap calls) ∧
    get_buffer_usage (runPool cap calls) ≤ 100 := by
  obtain ⟨hpos, hsum, hcap⟩ := runPool_inv cap calls h
  have htot := runPool_total cap calls
  have hused : (0 : Int) ≤ (runPool cap calls).used_buffer_kb :=
    le_trans (sumSizes_nonneg hpos) hsum
  have htot' : ((runPool cap calls).total_buffer_size_kb : Int) = (cap : Int) := by
    exact_mod_cast congrArg (Nat.cast : Nat → Int) htot
  refine ⟨by omega, ?_, ?_⟩
  · unfold get_buffer_usage
    split <;> rename_i hpos₂
    · have h₁ : (0 : ℚ) ≤ ((runPool cap calls).used_buffer_kb : ℚ) := by
        exact_mod_cast hused
      have h₂ : (0 : ℚ) < ((runPool cap calls).total_buffer_size_kb : ℚ) := by
        exact_mod_cast hpos₂
      positivity
    · exact le_refl 0
  · unfold get_buffer_usage
    split <;> rename_i hpos₂
    · have h₂ : (0 : ℚ) < ((runPool cap calls).total_buffer_size_kb : ℚ) := by
        exact_mod_cast hpos₂
      have h₃ : ((runPool cap calls).used_buffer_kb : ℚ) ≤
          ((runPool cap calls).total_buffer_size_kb : ℚ) := by
        exact_mod_cast hcap
      have h₄ : ((runPool cap calls).used_buffer_kb : ℚ) /
          ((runPool cap calls).total_buffer_size_kb : ℚ) ≤ 1 :=
        (div_le_one h₂).mpr h₃
      nlinarith
    · norm_num

/-- Witness for C4 at a concrete call sequence: allocate 1 MB twice, release
one, on a 1024 KB pool. -/
theorem C4_pool_usage_bounds_witness :
    (runPool 1024 [.alloc 1 "a", .alloc 1 "b", .release "a"]).used_buffer_kb ≤
      (1024 : Int) ∧
    0 ≤ get_buffer_usage (runPool 1024 [.alloc 1 "a", .alloc 1 "b", .release "a"]) ∧
    get_buffer_usage (runPool 1024 [.alloc 1 "a", .alloc 1 "b", .release "a"]) ≤ 100 :=
  C4_pool_usage_bounds 1024 [.alloc 1 "a", .alloc 1 "b", .release "a"] (by decide)

/-! ## `IOOperation` (`Driver_USB.py` lines 98-123)

`operation_id` is the uuid-generated identifier; `status` keeps the source's
string values `"PENDIENTE"`, `"EN_PROGRESO"`, `"COMPLETADA"`, `"FALLIDA"`.
`IOOperation.__lt__` compares `self.priority > other.priority`, so Python's
min-oriented `PriorityQueue` pops a maximal-priority element. -/

structure IOOperation where
  operation_id : String
  operation_type : OperationType
  data_size_mb : ℚ
  process_name : String
  priority : Int := 0
  block_address : Option Int := none
  start_time : Option Nat := none
  completion_time : Option Nat := none
  status : String := "PENDIENTE"
deriving DecidableEq, Repr

/-! ## `IOScheduler` (`Driver_USB.py` lines 493-579)

A per-device queue is its list of pending operations.  Under `FIFO` (and the
default `else` branch used by `ROUND_ROBIN` and `TRABAJO_MAS_CORTO_PRIMERO`)
the underlying `queue.Queue` is represented in arrival order: `put` appends,
`get` takes the head.  Under `PRIORIDAD` the library `PriorityQueue` is
represented by its contents in insertion order, and `get` is modelled by its
contract: it removes an element of maximal `priority` (per
`IOOperation.__lt__`); which maximal element is removed on ties is
heap-internal, and no property below depends on the tie choice. -/

/-- Pop of the `PriorityQueue`: an element of maximal priority (the first such
one), together with the remaining elements. -/
def selectMax : IOOperation → List IOOperation → IOOperation × List IOOperation
  | x, [] => (x, [])
  | x, y :: ys =>
      if y.priority > x.priority then
        let p := selectMax y ys
        (p.1, x :: p.2)
      else
        let p := selectMax x ys
        (p.1, y :: p.2)

/-- The shortest-job selection of `get_next_operation`: Python's
`min(operations, key=lambda op: op.data_size_mb)` keeps the first minimum, and
the non-selected operations are re-inserted in their drain order. -/
def selectMin : IOOperation → List IOOperation → IOOperation × List IOOperation
  | x, [] => (x, [])
  | x, y :: ys =>
      if y.data_size_mb < x.data_size_mb then
        let p := selectMin y ys
        (p.1, x :: p.2)
      else
        let p := selectMin x ys
        (p.1, y :: p.2)

/-- Embedding of `IOScheduler.get_next_operation` restricted to one device's queue: returns
the dequeued operation and the queue contents it leaves behind (`None` when
the queue is empty). -/
def get_next_operation (algorithm : SchedulingAlgorithm) :
    List IOOperation → Option (IOOperation × List IOOperation)
  | [] => none
  | x :: xs =>
      match algorithm with
      | .FIFO => some (x, xs)
      | .PRIORIDAD => some (selectMax x xs)
      | .TRABAJO_MAS_CORTO_PRIMERO => some (selectMin x xs)
      | .ROUND_ROBIN => some (x, xs)

/-- Embedding of `IOScheduler.add_operation` restricted to one device's queue. -/
def add_operation (q : List IOOperation) (io_operation : IOOperation) :
    List IOOperation :=
  q ++ [io_operation]

theorem selectMax_perm (x : IOOperation) (xs : List IOOperation) :
    List.Perm (x :: xs) ((selectMax x xs).1 :: (selectMax x xs).2) := by
  induction xs generalizing x with
  | nil => simp [selectMax]
  | cons y ys ih =>
      by_cases h : y.priority > x.priority
      · simp only [selectMax, if_pos h]
        exact (List.Perm.cons x (ih y)).trans (List.Perm.swap _ _ _)
      · simp only [selectMax, if_neg h]
        exact ((List.Perm.swap _ _ _).trans (List.Perm.cons y (ih x))).trans
          (List.Perm.swap _ _ _)

theorem selectMax_ge (x : IOOperation) (xs : List IOOperation) :
    ∀ z ∈ x :: xs, z.priority ≤ (selectMax x xs).1.priority := by
  induction xs generalizing x with
  | nil => intro z hz; simp at hz; simp [selectMax, hz]
  | cons y ys ih =>
      intro z hz
      rcases List.mem_cons.mp hz with hz | hz
      · subst hz
        by_cases h : y.priority > z.priority
        · simp only [selectMax, if_pos h]
          have := ih y y (List.mem_cons_self _ _)
          omega
        · simp only [selectMax, if_neg h]
          exact ih z z (List.mem_cons_self _ _)
      · rcases List.mem_cons.mp hz with hz | hz
        · subst hz
          by_cases h : z.priority > x.priority
          · simp only [selectMax, if_pos h]
            exact ih z z (List.mem_cons_self _ _)
          · simp only [selectMax, if_neg h]
            have := ih x x (List.mem_cons_self _ _)
            omega
        · by_cases h : y.priority > x.priority
          · simp only [selectMax, if_pos h]
            exact ih y z (List.mem_cons_of_mem _ hz)
          · simp only [selectMax, if_neg h]
            exact ih x z (List.mem_cons_of_mem _ hz)

theorem selectMin_perm (x : IOOperation) (xs : List IOOperation) :
    List.Perm (x :: xs) ((selectMin x xs).1 :: (selectMin x xs).2) := by
  induction xs generalizing x with
  | nil => simp [selectMin]
  | cons y ys ih =>
      by_cases h : y.data_size_mb < x.data_size_mb
      · simp only [selectMin, if_pos h]
        exact (List.Perm.cons x (ih y)).trans (List.Perm.swap _ _ _)
      · simp only [selectMin, if_neg h]
        exact ((List.Perm.swap _ _ _).trans (List.Perm.cons y (ih x))).trans
          (List.Perm.swap _ _ _)

theorem selectMin_le (x : IOOperation) (xs : List IOOperation) :
    ∀ z ∈ x :: xs, (selectMin x xs).1.data_size_mb ≤ z.data_size_mb := by
  induction xs generalizing x with
  | nil => intro z hz; simp at hz; simp [selectMin, hz]
  | cons y ys ih =>
      intro z hz
      rcases List.mem_cons.mp hz with hz | hz
      · subst hz
        by_cases h : y.data_size_mb < z.data_size_mb
        · simp only [selectMin, if_pos h]
          have := ih y y (List.mem_cons_self _ _)
          linarith
        · simp only [selectMin, if_neg h]
          exact ih z z (List.mem_cons_self _ _)
      · rcases List.mem_cons.mp hz with hz | hz
        · subst hz
          by_cases h : z.data_size_mb < x.data_size_mb
          · simp only [selectMin, if_pos h]
            exact ih z z (List.mem_cons_self _ _)
          · simp only [selectMin, if_neg h]
            have := ih x x (List.mem_cons_self _ _)
            linarith
        · by_cases h : y.data_size_mb < x.data_size_mb
          · simp only [selectMin, if_pos h]
            exact ih y z (List.mem_cons_of_mem _ hz)
          · simp only [selectMin, if_neg h]
            exact ih x z (List.mem_cons_of_mem _ hz)

theorem selectMax_length (x : IOOperation) (xs : List IOOperation) :
    (selectMax x xs).2.length = xs.length := by
  induction xs generalizing x with
  | nil => simp [selectMax]
  | cons y ys ih =>
      by_cases h : y.priority > x.priority <;>
        simp [selectMax, h, ih]

theorem selectMin_length (x : IOOperation) (xs : List IOOperation) :
    (selectMin x xs).2.length = xs.length := by
  induction xs generalizing x with
  | nil => simp [selectMin]
  | cons y ys ih =>
      by_cases h : y.data_size_mb < x.data_size_mb <;>
        simp [selectMin, h, ih]

theorem get_next_operation_length {algorithm : SchedulingAlgorithm}
    {q : List IOOperation} {p : IOOperation × List IOOperation}
    (h : get_next_operation algorithm q = some p) : p.2.length < q.length := by
  cases q with
  | nil => simp [get_next_operation] at h
  | cons x xs =>
      cases algorithm <;>
        simp only [get_next_operation, Option.some.injEq] at h <;>
        rw [← h] <;> simp [selectMax_length, selectMin_length]

theorem get_next_operation_none {algorithm : SchedulingAlgorithm}
    {q : List IOOperation} (h : get_next_operation algorithm q = none) : q = [] := by
  cases q with
  | nil => rfl
  | cons x xs => cases algorithm <;> simp [get_next_operation] at h

theorem get_next_operation_perm {algorithm : SchedulingAlgorithm}
    {q : List IOOperation} {p : IOOperation × List IOOperation}
    (h : get_next_operation algorithm q = some p) : List.Perm q (p.1 :: p.2) := by
  cases q with
  | nil => simp [get_next_operation] at h
  | cons x xs =>
      cases algorithm <;> simp only [get_next_operation, Option.some.injEq] at h <;>
        rw [← h]
      · exact selectMax_perm x xs
      · exact selectMin_perm x xs

theorem get_next_operation_prio_ge {q : List IOOperation}
    {p : IOOperation × List IOOperation}
    (h : get_next_operation .PRIORIDAD q = some p) :
    ∀ z ∈ q, z.priority ≤ p.1.priority := by
  cases q with
  | nil => simp [get_next_operation] at h
  | cons x xs =>
      simp only [get_next_operation, Option.some.injEq] at h
      rw [← h]
      exact selectMax_ge x xs

/-- Dequeue every pending operation of one device's queue, in scheduler order. -/
def drainAll (algorithm : SchedulingAlgorithm) (q : List IOOperation) :
    List IOOperation :=
  match h : get_next_operation algorithm q with
  | none => []
  | some p => p.1 :: drainAll algorithm p.2
termination_by q.length
decreasing_by exact get_next_operation_length h

theorem drainAll_perm_aux (algorithm : SchedulingAlgorithm) :
    ∀ (n : Nat) (q : List IOOperation), q.length ≤ n →
      List.Perm (drainAll algorithm q) q := by
  intro n
  induction n with
  | zero =>
      intro q hq
      have hq₂ : q = [] := List.length_eq_zero.mp (Nat.le_zero.mp hq)
      subst hq₂
      rw [drainAll]
      simp [get_next_operation]
  | succ n ih =>
      intro q hq
      rw [drainAll]
      split
      · rename_i h
        rw [get_next_operation_none h]
      · rename_i p h
        have hlen := get_next_operation_length h
        have ihp := ih p.2 (by omega)
        exact (List.Perm.cons p.1 ihp).trans (get_next_operation_perm h).symm

theorem drainAll_perm (algorithm : SchedulingAlgorithm) (q : List IOOperation) :
    List.Perm (drainAll algorithm q) q :=
  drainAll_perm_aux algorithm q.length q (le_refl _)

/-- Enqueue a batch of operations into an (initially empty) device queue via
`add_operation`. -/
def enqueue_batch (batch : List IOOperation) : List IOOperation :=
  batch.foldl add_operation []

theorem enqueue_batch_eq (batch : List IOOperation) : enqueue_batch batch = batch := by
  suffices hgen : ∀ q, batch.foldl add_operation q = q ++ batch by
    simpa using hgen []
  induction batch with
  | nil => intro q; simp
  | cons b rest ih => intro q; simp [add_operation, ih]

/-! ## Claims C5, C6, C7 -/

/-- C5: under the `PRIORIDAD` policy, dequeuing all requests of one device's
queue yields pairwise non-increasing priority values — a request with a larger
priority value is never dequeued after one with a smaller value.  (The queue
contents `q` are whatever set of requests was enqueued for the device.) -/
theorem C5_priority_order (q : List IOOperation) :
    List.Pairwise (fun a b => b ≤ a)
      ((drainAll .PRIORIDAD q).map (fun io_operation => io_operation.priority)) := by
  suffices hgen : ∀ (n : Nat) (q : List IOOperation), q.length ≤ n →
      List.Pairwise (fun a b => b ≤ a)
        ((drainAll .PRIORIDAD q).map (fun io_operation => io_operation.priority)) from
    hgen q.length q (le_refl _)
  intro n
  induction n with
  | zero =>
      intro q hq
      have hq₂ : q = [] := List.length_eq_zero.mp (Nat.le_zero.mp hq)
      subst hq₂
      rw [drainAll]
      simp [get_next_operation]
  | succ n ih =>
      intro q hq
      rw [drainAll]
      split
      · simp
      · rename_i p h
        have hlen := get_next_operation_length h
        have ihp := ih p.2 (by omega)
        simp only [List.map_cons, List.pairwise_cons]
        refine ⟨?_, ihp⟩
        intro b hb
        simp only [List.mem_map] at hb
        obtain ⟨z, hz, hzb⟩ := hb
        have hz₂ : z ∈ p.2 := (drainAll_perm _ _).mem_iff.mp hz
        have hz₃ : z ∈ q := (get_next_operation_perm h).mem_iff.mpr
          (List.mem_cons_of_mem _ hz₂)
        rw [← hzb]
        exact get_next_operation_prio_ge h z hz₃

/-- C6: under the `TRABAJO_MAS_CORTO_PRIMERO` policy, after enqueuing any
non-empty batch `x :: xs` for one device, the first dequeue returns a request
whose data size is minimal over the whole batch, and the remaining requests
are exactly the ones reinserted into the device's queue (the new queue
contents together with the dequeued request are a permutation of the batch). -/
theorem C6_shortest_first (x : IOOperation) (xs : List IOOperation) :
    get_next_operation .TRABAJO_MAS_CORTO_PRIMERO (enqueue_batch (x :: xs)) =
      some (selectMin x xs) ∧
    (∀ z ∈ x :: xs, (selectMin x xs).1.data_size_mb ≤ z.data_size_mb) ∧
    List.Perm (x :: xs) ((selectMin x xs).1 :: (selectMin x xs).2) := by
  rw [enqueue_batch_eq]
  exact ⟨rfl, selectMin_le x xs, selectMin_perm x xs⟩

/-- Witness for C6 at a concrete batch: sizes 50 and 5; the dequeued request
is the size-5 one. -/
theorem C6_shortest_first_witness :
    (get_next_operation .TRABAJO_MAS_CORTO_PRIMERO
        (enqueue_batch [⟨"op1", .LECTURA, 50, "P1", 0, none, none, none, "PENDIENTE"⟩,
          ⟨"op2", .LECTURA, 5, "P2", 0, none, none, none, "PENDIENTE"⟩]) =
      some (selectMin ⟨"op1", .LECTURA, 50, "P1", 0, none, none, none, "PENDIENTE"⟩
          [⟨"op2", .LECTURA, 5, "P2", 0, none, none, none, "PENDIENTE"⟩]) ∧
    (∀ z ∈ [⟨"op1", .LECTURA, 50, "P1", 0, none, none, none, "PENDIENTE"⟩,
        ⟨"op2", .LECTURA, 5, "P2", 0, none, none, none, "PENDIENTE"⟩],
      (selectMin ⟨"op1", .LECTURA, 50, "P1", 0, none, none, none, "PENDIENTE"⟩
          [⟨"op2", .LECTURA, 5, "P2", 0, none, none, none, "PENDIENTE"⟩]).1.data_size_mb ≤
        IOOperation.data_size_mb z) ∧
    List.Perm [⟨"op1", .LECTURA, 50, "P1", 0, none, none, none, "PENDIENTE"⟩,
        ⟨"op2", .LECTURA, 5, "P2", 0, none, none, none, "PENDIENTE"⟩]
      ((selectMin ⟨"op1", .LECTURA, 50, "P1", 0, none, none, none, "PENDIENTE"⟩
          [⟨"op2", .LECTURA, 5, "P2", 0, none, none, none, "PENDIENTE"⟩]).1 ::
        (selectMin ⟨"op1", .LECTURA, 50, "P1", 0, none, none, none, "PENDIENTE"⟩
          [⟨"op2", .LECTURA, 5, "P2", 0, none, none, none, "PENDIENTE"⟩]).2)) :=
  C6_shortest_first ⟨"op1", .LECTURA, 50, "P1", 0, none, none, none, "PENDIENTE"⟩
    [⟨"op2", .LECTURA, 5, "P2", 0, none, none, none, "PENDIENTE"⟩]

/-! ## Interleaved enqueue/dequeue call sequences on one device (for C7) -/

inductive SchedCall
  | enq (io_operation : IOOperation)
  | deq
deriving DecidableEq, Repr

/-- The trace of dequeue results that a sequence of `add_operation` /
`get_next_operation` calls produces on one device's queue (one `Option` per
dequeue call, `none` for an empty queue, exactly as the source returns). -/
def schedTrace (algorithm : SchedulingAlgorithm) :
    List IOOperation → List SchedCall → List (Option IOOperation)
  | _, [] => []
  | q, .enq io_operation :: calls => schedTrace algorithm (add_operation q io_operation) calls
  | q, .deq :: calls =>
      match get_next_operation algorithm q with
      | none => none :: schedTrace algorithm q calls
      | some p => some p.1 :: schedTrace algorithm p.2 calls

/-- C7: for every sequence of enqueue and dequeue calls on one device
(starting from its fresh empty queue), the dequeue order under `ROUND_ROBIN`
is identical to the dequeue order under `FIFO`. -/
theorem C7_round_robin_is_fifo (calls : List SchedCall) :
    schedTrace .ROUND_ROBIN [] calls = schedTrace .FIFO [] calls := by
  suffices hgen : ∀ (calls : List SchedCall) (q : List IOOperation),
      schedTrace .ROUND_ROBIN q calls = schedTrace .FIFO q calls from hgen calls []
  intro calls
  induction calls with
  | nil => intro q; rfl
  | cons c rest ih =>
      intro q
      cases c with
      | enq io_operation => simpa [schedTrace] using ih (add_operation q io_operation)
      | deq =>
          cases q with
          | nil => simp [schedTrace, get_next_operation, ih]
          | cons x xs => simp [schedTrace, get_next_operation, ih]

/-! ## `DeviceControlBlock` (`Driver_USB.py` lines 60-96)

`creation_time` is never read after construction and is omitted.
`last_operation_time` starts at `0` and is set to the current time on a
successful completion, exactly as in the source. -/

structure DeviceControlBlock where
  device_id : Int
  device_name : String
  device_type : DeviceType
  capacity_gb : ℚ := 0
  transfer_rate_mb_s : ℚ := 0
  status : DeviceStatus := .DESCONECTADO
  current_position : Int := 0
  error_count : Nat := 0
  operations_completed : Nat := 0
  bytes_transferred : ℚ := 0
  last_operation_time : Nat := 0
deriving DecidableEq, Repr

/-- The string `device_name.upper().replace(' ', '_') + '_' + event`: the event
naming convention wiring device lifecycle to handler dispatch. -/
def eventName (device_name : String) (event : String) : String :=
  (device_name.toUpper.replace " " "_") ++ "_" ++ event

/-! ## `DeviceDriver` and its two variants (`Driver_USB.py` lines 208-412)

A driver owns its DCB together with the shared buffer manager and interrupt
table, and keeps its `operation_history` (requests it started; the source
stores object references, here the snapshot at insertion — only the entry
count is used by the properties below).  During `perform_operation` /
`complete_operation` the only triggered interrupts are
`<NAME>_OPERATION_COMPLETED` (both variants, from `complete_operation`) and
`<NAME>_ERROR` (character variant failure path).  With the handler wiring
installed by the constructors — `<NAME>_CONNECT` / `<NAME>_DISCONNECT` /
`<NAME>_ERROR` for the block variant and `<NAME>_CONNECT` /
`<NAME>_DISCONNECT` / `<NAME>_DATA_AVAILABLE` for the character variant —
neither triggered name has a registered handler (the character variant does
not register `<NAME>_ERROR`), so inside these operations `trigger_interrupt`
only appends a raw-event history entry and bumps the per-event counter when
the event has a stats entry; `triggerFromDriver` embeds exactly that.  The
general `InterruptTable` dispatch semantics (handler invocation, exception
swallowing, re-entrant triggering) is modelled separately further below.
The simulated seek/transfer delays are wall-clock sleeps with no effect on
any state; the transfer-rate division assumes a positive rate per the data
model.  Interrupt payloads (the completed request, the random error code) are
not inspected by any property here, so history entries record event names. -/

structure DriverState where
  dcb : DeviceControlBlock
  bm : BufferManager
  it_stats : List (String × Nat)
  it_history : List String
  operation_history : List IOOperation
deriving DecidableEq, Repr

/-- Embedding of `trigger_interrupt` as observed from inside driver operations (no handler
registered for the triggered event; see the section comment). -/
def triggerFromDriver (interrupt_type : String) (st : DriverState) : DriverState :=
  { st with
    it_history := st.it_history ++ [interrupt_type],
    it_stats :=
      match dictLookup interrupt_type st.it_stats with
      | some c => dictInsert interrupt_type (c + 1) st.it_stats
      | none => st.it_stats }

/-- Embedding of `DeviceDriver.perform_operation` (lines 219-232): the base rejection and
in-progress stamping shared by both variants. -/
def perform_operation_base (now : Nat) (st : DriverState) (io_operation : IOOperation) :
    Bool × DriverState × IOOperation :=
  if st.dcb.status ≠ DeviceStatus.CONECTADO then
    (false, st, io_operation)
  else
    let op₁ := { io_operation with start_time := some now, status := "EN_PROGRESO" }
    (true, { st with operation_history := st.operation_history ++ [op₁] }, op₁)

/-- Embedding of `DeviceDriver.complete_operation` (lines 234-251). -/
def complete_operation (now : Nat) (st : DriverState) (io_operation : IOOperation)
    (success : Bool) : DriverState × IOOperation :=
  let op₁ := { io_operation with
    completion_time := some now,
    status := if success then "COMPLETADA" else "FALLIDA" }
  let dcb₁ :=
    if success then
      { st.dcb with
        operations_completed := st.dcb.operations_completed + 1,
        bytes_transferred := st.dcb.bytes_transferred +
          io_operation.data_size_mb * 1024 * 1024,
        last_operation_time := now }
    else
      { st.dcb with error_count := st.dcb.error_count + 1 }
  let bm₁ := (release_buffer io_operation.operation_id st.bm).2
  let st₁ := triggerFromDriver (eventName st.dcb.device_name "OPERATION_COMPLETED")
    { st with dcb := dcb₁, bm := bm₁ }
  (st₁, op₁)

/-- Embedding of `BlockDeviceDriver.perform_operation` (lines 287-338). -/
def block_perform_operation (fault : Bool) (now : Nat) (st : DriverState)
    (io_operation : IOOperation) : Bool × DriverState × IOOperation :=
  match perform_operation_base now st io_operation with
  | (false, st₁, op₁) => (false, st₁, op₁)
  | (true, st₁, op₁) =>
      let st₂ := { st₁ with dcb := { st₁.dcb with status := DeviceStatus.OCUPADO } }
      match allocate_buffer op₁.data_size_mb op₁.operation_id st₂.bm with
      | (false, _) =>
          let r := complete_operation now st₂ op₁ false
          (false, r.1, r.2)
      | (true, bm₁) =>
          let st₃ := { st₂ with bm := bm₁ }
          let st₄ :=
            match op₁.block_address with
            | some addr => { st₃ with dcb := { st₃.dcb with current_position := addr } }
            | none => st₃
          if fault then
            let r := complete_operation now st₄ op₁ false
            (false, { r.1 with dcb := { r.1.dcb with status := DeviceStatus.ERROR } }, r.2)
          else
            let r := complete_operation now st₄ op₁ true
            (true, { r.1 with dcb := { r.1.dcb with status := DeviceStatus.CONECTADO } }, r.2)

/-- Embedding of `CharacterDeviceDriver.perform_operation` (lines 373-412): no seek, no
buffer allocation; the failure path additionally raises a `<NAME>_ERROR`
interrupt. -/
def character_perform_operation (fault : Bool) (now : Nat) (st : DriverState)
    (io_operation : IOOperation) : Bool × DriverState × IOOperation :=
  match perform_operation_base now st io_operation with
  | (false, st₁, op₁) => (false, st₁, op₁)
  | (true, st₁, op₁) =>
      let st₂ := { st₁ with dcb := { st₁.dcb with status := DeviceStatus.OCUPADO } }
      if fault then
        let r := complete_operation now st₂ op₁ false
        let st₃ := { r.1 with dcb := { r.1.dcb with status := DeviceStatus.ERROR } }
        let st₄ := triggerFromDriver (eventName st₃.dcb.device_name "ERROR") st₃
        (false, st₄, r.2)
      else
        let r := complete_operation now st₂ op₁ true
        (true, { r.1 with dcb := { r.1.dcb with status := DeviceStatus.CONECTADO } }, r.2)

/-- The polymorphic `perform_operation` call, dispatched on the driver's
variant. -/
def perform_operation (device_type : DeviceType) (fault : Bool) (now : Nat)
    (st : DriverState) (io_operation : IOOperation) : Bool × DriverState × IOOperation :=
  match device_type with
  | .BLOQUE => block_perform_operation fault now st io_operation
  | .CARACTER => character_perform_operation fault now st io_operation

theorem dictPop_of_lookup_none {β : Type} {k : String} :
    ∀ {l : List (String × β)}, dictLookup k l = none → dictPop k l = none := by
  intro l
  induction l with
  | nil => intro _; rfl
  | cons p rest ih =>
      obtain ⟨k₁, v₁⟩ := p
      intro h
      by_cases hk : k₁ = k
      · simp [dictLookup, hk] at h
      · simp only [dictLookup, if_neg hk] at h
        simp [dictPop, hk, ih h]

/-! ## Claims C8 and C1 -/

/-- C8: for either driver variant and any request, if the device status is
not `CONECTADO` then `perform_operation` returns `false` immediately and
leaves all device and driver state unchanged — no status change, no counter
change, no buffer activity, no interrupt — and the request is returned
untouched (in particular not stamped in progress). -/
theorem C8_reject_when_not_connected (device_type : DeviceType) (fault : Bool)
    (now : Nat) (st : DriverState) (io_operation : IOOperation)
    (h : st.dcb.status ≠ DeviceStatus.CONECTADO) :
    perform_operation device_type fault now st io_operation =
      (false, st, io_operation) := by
  cases device_type <;>
    simp [perform_operation, block_perform_operation, character_perform_operation,
      perform_operation_base, h]

def sampleOp : IOOperation :=
  { operation_id := "op-a1", operation_type := .LECTURA, data_size_mb := 1,
    process_name := "Proc1", priority := 5 }

def sampleDCB : DeviceControlBlock :=
  { device_id := 1, device_name := "Unidad USB", device_type := .BLOQUE,
    capacity_gb := 128, transfer_rate_mb_s := 30 }

/-- A freshly constructed (still disconnected) block driver. -/
def disconnectedDriver : DriverState :=
  { dcb := sampleDCB, bm := {}, it_stats := [], it_history := [],
    operation_history := [] }

/-- Witness for C8: a disconnected block device rejects a request with no
state change. -/
theorem C8_reject_when_not_connected_witness :
    perform_operation .BLOQUE false 0 disconnectedDriver sampleOp =
      (false, disconnectedDriver, sampleOp) :=
  C8_reject_when_not_connected .BLOQUE false 0 disconnectedDriver sampleOp (by decide)

/-- Whether `allocate_buffer` would refuse this request's allocation on this
pool (the guard of `BlockDeviceDriver.perform_operation`'s allocation step). -/
def allocationRefused (bm : BufferManager) (io_operation : IOOperation) : Bool :=
  decide (bm.used_buffer_kb + mbToKb io_operation.data_size_mb >
    (bm.total_buffer_size_kb : Int))

/-- A connected block driver whose buffer pool has zero capacity, so any
positive-size allocation is refused. -/
def connectedTinyPool : DriverState :=
  { dcb := { sampleDCB with status := .CONECTADO },
    bm := { total_buffer_size_kb := 0 }, it_stats := [], it_history := [],
    operation_history := [] }

/-- C1 counterexample: on a connected block device whose pool refuses the
request's buffer allocation, `perform_operation` returns `false` — a failed
perform — yet the device status is left `OCUPADO`, not `ERROR` as the claim
states. -/
theorem C1_counterexample :
    connectedTinyPool.dcb.status = DeviceStatus.CONECTADO ∧
    (perform_operation .BLOQUE false 0 connectedTinyPool sampleOp).1 = false ∧
    (perform_operation .BLOQUE false 0 connectedTinyPool sampleOp).2.1.dcb.status =
      DeviceStatus.OCUPADO ∧
    (perform_operation .BLOQUE false 0 connectedTinyPool sampleOp).2.1.dcb.status ≠
      DeviceStatus.ERROR := by
  refine ⟨rfl, ?_, ?_, ?_⟩ <;>
    norm_num [perform_operation, block_perform_operation, perform_operation_base,
      complete_operation, allocate_buffer, release_buffer, triggerFromDriver,
      connectedTinyPool, sampleDCB, sampleOp, mbToKb, pyInt, eventName,
      dictLookup, dictInsert, dictPop] <;> decide

/-- C1 (amended): for either variant, an invocation of `perform_operation` on
a connected device that returns `false` leaves the request with the terminal
status `"FALLIDA"` and a stamped completion time, leaves no buffer allocation
held for the request (whose fresh id is not yet in the pool, per the
collision-free id model), increments the device error count by exactly one,
and appends exactly one entry to the driver's operation history — the driver
never retries the request.  The device status, however, equals `ERROR` only
when the failure is the simulated transfer fault; when the block variant's
buffer allocation is refused, the device is left `OCUPADO` instead. -/
theorem C1_failed_perform_amended (device_type : DeviceType) (fault : Bool)
    (now : Nat) (st : DriverState) (io_operation : IOOperation)
    (hconn : st.dcb.status = DeviceStatus.CONECTADO)
    (hfresh : dictLookup io_operation.operation_id st.bm.buffers = none)
    (hfail : (perform_operation device_type fault now st io_operation).1 = false) :
    (perform_operation device_type fault now st io_operation).2.2.status =
      "FALLIDA" ∧
    (perform_operation device_type fault now st io_operation).2.2.completion_time =
      some now ∧
    dictLookup io_operation.operation_id
      (perform_operation device_type fault now st io_operation).2.1.bm.buffers =
      none ∧
    (perform_operation device_type fault now st io_operation).2.1.dcb.error_count =
      st.dcb.error_count + 1 ∧
    (perform_operation device_type fault now st
        io_operation).2.1.operation_history.length =
      st.operation_history.length + 1 ∧
    (perform_operation device_type fault now st io_operation).2.1.dcb.status =
      (if device_type = DeviceType.BLOQUE ∧
          allocationRefused st.bm io_operation = true
       then DeviceStatus.OCUPADO else DeviceStatus.ERROR) := by
  have hpop := dictPop_of_lookup_none hfresh
  cases device_type with
  | CARACTER =>
      cases fault with
      | false =>
          exfalso
          simp [perform_operation, character_perform_operation,
            perform_operation_base, hconn] at hfail
      | true =>
          simp [perform_operation, character_perform_operation,
            perform_operation_base, complete_operation, release_buffer,
            triggerFromDriver, hconn, hpop, hfresh, allocationRefused]
  | BLOQUE =>
      by_cases href : st.bm.used_buffer_kb + mbToKb io_operation.data_size_mb >
          (st.bm.total_buffer_size_kb : Int)
      · simp [perform_operation, block_perform_operation, perform_operation_base,
          complete_operation, allocate_buffer, release_buffer, triggerFromDriver,
          hconn, hpop, hfresh, allocationRefused, href]
      · cases fault with
        | false =>
            exfalso
            cases hba : io_operation.block_address with
            | none =>
                simp [perform_operation, block_perform_operation,
                  perform_operation_base, allocate_buffer, hconn, href, hba] at hfail
            | some addr =>
                simp [perform_operation, block_perform_operation,
                  perform_operation_base, allocate_buffer, hconn, href, hba] at hfail
        | true =>
            cases hba : io_operation.block_address with
            | none =>
                simp [perform_operation, block_perform_operation,
                  perform_operation_base, complete_operation, allocate_buffer,
                  release_buffer, triggerFromDriver, hconn, href, hba,
                  allocationRefused, hfresh,
                  dictLookup_none_dictInsert hfresh,
                  dictPop_append_single hfresh]
            | some addr =>
                simp [perform_operation, block_perform_operation,
                  perform_operation_base, complete_operation, allocate_buffer,
                  release_buffer, triggerFromDriver, hconn, href, hba,
                  allocationRefused, hfresh,
                  dictLookup_none_dictInsert hfresh,
                  dictPop_append_single hfresh]

/-- Witness for C1 (amended) at a concrete failed perform: the connected
block device with a refusing pool. -/
theorem C1_failed_perform_amended_witness :
    (perform_operation .BLOQUE false 0 connectedTinyPool sampleOp).2.2.status =
      "FALLIDA" ∧
    (perform_operation .BLOQUE false 0 connectedTinyPool sampleOp).2.2.completion_time =
      some 0 ∧
    dictLookup sampleOp.operation_id
      (perform_operation .BLOQUE false 0 connectedTinyPool sampleOp).2.1.bm.buffers =
      none ∧
    (perform_operation .BLOQUE false 0 connectedTinyPool sampleOp).2.1.dcb.error_count =
      connectedTinyPool.dcb.error_count + 1 ∧
    (perform_operation .BLOQUE false 0 connectedTinyPool
        sampleOp).2.1.operation_history.length =
      connectedTinyPool.operation_history.length + 1 ∧
    (perform_operation .BLOQUE false 0 connectedTinyPool sampleOp).2.1.dcb.status =
      (if DeviceType.BLOQUE = DeviceType.BLOQUE ∧
          allocationRefused connectedTinyPool.bm sampleOp = true
       then DeviceStatus.OCUPADO else DeviceStatus.ERROR) :=
  C1_failed_perform_amended .BLOQUE false 0 connectedTinyPool sampleOp rfl rfl
    (by norm_num [perform_operation, block_perform_operation, perform_operation_base,
      complete_operation, allocate_buffer, release_buffer, triggerFromDriver,
      connectedTinyPool, sampleDCB, sampleOp, mbToKb, pyInt, eventName,
      dictLookup, dictInsert, dictPop])

/-- Shared rejection lemma: both variants return `false` with no state change
when the device is not connected (`DeviceDriver.perform_operation`'s guard,
hit before any other statement of either override). -/
theorem perform_operation_rejects (device_type : DeviceType) (fault : Bool)
    (now : Nat) (st : DriverState) (io_operation : IOOperation)
    (h : st.dcb.status ≠ DeviceStatus.CONECTADO) :
    perform_operation device_type fault now st io_operation =
      (false, st, io_operation) := by
  cases device_type <;>
    simp [perform_operation, block_perform_operation, character_perform_operation,
      perform_operation_base, h]

/-! ## C2: the character disconnect handler re-triggers its own interrupt

`CharacterDeviceDriver.on_disconnect` (lines 363-367) sets the device status
to `DESCONECTADO` and then calls `trigger_interrupt` for `<NAME>_DISCONNECT`
again.  But the handler registered for `<NAME>_DISCONNECT` *is*
`on_disconnect` itself, so every nested `trigger_interrupt` appends a history
entry, bumps the event counter, and dispatches back into `on_disconnect`.  In
Python this recursion is cut only by the interpreter's recursion limit: the
bottommost nested call raises `RecursionError` before recording anything, the
surrounding `except` in `trigger_interrupt` swallows it, and the whole stack
unwinds normally.  The model makes the remaining stack budget explicit as
`fuel`; a call entered with `fuel = 0` is the frame that raises immediately. -/

structure CharDisconnectState where
  status : DeviceStatus
  history_entries : Nat
  trigger_count : Nat
deriving DecidableEq, Repr

/-- One (possibly re-entrant) `trigger_interrupt` of `<NAME>_DISCONNECT` on a
character device, with `fuel` remaining stack frames: append the history
entry, bump the counter, dispatch to `on_disconnect`, which sets the status
and re-triggers the same interrupt. -/
def trigger_disconnect : Nat → CharDisconnectState → CharDisconnectState
  | 0, st => st
  | fuel + 1, st =>
      let st₁ := { st with
        history_entries := st.history_entries + 1,
        trigger_count := st.trigger_count + 1 }
      let st₂ := { st₁ with status := DeviceStatus.DESCONECTADO }
      trigger_disconnect fuel st₂

theorem trigger_disconnect_entries (fuel : Nat) :
    ∀ st : CharDisconnectState,
      (trigger_disconnect fuel st).history_entries = st.history_entries + fuel := by
  induction fuel with
  | zero => intro st; simp [trigger_disconnect]
  | succ n ih =>
      intro st
      simp only [trigger_disconnect, ih]
      omega

theorem trigger_disconnect_status (fuel : Nat) :
    ∀ st : CharDisconnectState,
      (trigger_disconnect (fuel + 1) st).status = DeviceStatus.DESCONECTADO := by
  induction fuel with
  | zero => intro st; rfl
  | succ n ih => intro st; exact ih _

/-- C2 divergence: triggering `<NAME>_DISCONNECT` once on a connected
character device consumes the whole remaining recursion budget re-triggering
itself — with a budget of 1000 frames it appends 1000 raw-event history
entries, not the 2 (the external trigger plus exactly one re-trigger) that
the claim describes.  The device does end up `DESCONECTADO`. -/
theorem C2_disconnect_retrigger_diverges :
    (trigger_disconnect 1000 ⟨DeviceStatus.CONECTADO, 0, 0⟩).history_entries = 1000 ∧
    (1000 : Nat) ≠ 2 ∧
    (trigger_disconnect 1000 ⟨DeviceStatus.CONECTADO, 0, 0⟩).status =
      DeviceStatus.DESCONECTADO := by
  refine ⟨?_, by decide, ?_⟩
  · simpa using trigger_disconnect_entries 1000 ⟨DeviceStatus.CONECTADO, 0, 0⟩
  · exact trigger_disconnect_status 999 ⟨DeviceStatus.CONECTADO, 0, 0⟩

/-! ## `InterruptTable` (lines 125-169): general dispatch semantics

`trigger_interrupt` always appends a history entry and, when the event has a
stats record, increments its counter; then, if a handler is registered, it is
invoked with the payload inside `try/except`: mutations the handler performed
before raising persist, and the exception never propagates to the caller.  A
handler is embedded as a function from the payload and an external state to
the new external state paired with `true` when it raises; the table itself is
not part of the handler's state here (the self-re-triggering disconnect
handler is modelled above for C2).  Payload and external-state types are
parameters; `last_triggered` timestamps are not inspected by any property
and are omitted from the stats records. -/

structure InterruptTable (α σ : Type) where
  interrupt_handlers : List (String × (α → σ → σ × Bool))
  interrupt_history : List (String × α)
  interrupt_stats : List (String × Nat)

def register_interrupt_handler {α σ : Type} (interrupt_type : String)
    (handler : α → σ → σ × Bool) (t : InterruptTable α σ) : InterruptTable α σ :=
  { t with
    interrupt_handlers := dictInsert interrupt_type handler t.interrupt_handlers,
    interrupt_stats := dictInsert interrupt_type 0 t.interrupt_stats }

def trigger_interrupt {α σ : Type} (interrupt_type : String) (payload : α)
    (t : InterruptTable α σ) (ext : σ) : InterruptTable α σ × σ :=
  let t₁ := { t with
    interrupt_history := t.interrupt_history ++ [(interrupt_type, payload)],
    interrupt_stats :=
      match dictLookup interrupt_type t.interrupt_stats with
      | some c => dictInsert interrupt_type (c + 1) t.interrupt_stats
      | none => t.interrupt_stats }
  match dictLookup interrupt_type t.interrupt_handlers with
  | some handler => (t₁, (handler payload ext).1)
  | none => (t₁, ext)

/-! ## Claim C9 -/

/-- C9: for every registered event name and every handler — including one
that raises — `trigger_interrupt` invokes the handler with the payload (the
resulting external state is exactly the handler's effect, whether or not the
handler raised: the exception is caught, so `trigger_interrupt` is a total
function returning normally), and it always appends the history entry and
increments the event's counter. -/
theorem C9_trigger_swallows_handler_failure (α σ : Type) (interrupt_type : String)
    (payload : α) (t : InterruptTable α σ) (ext : σ)
    (handler : α → σ → σ × Bool) (c : Nat)
    (hh : dictLookup interrupt_type t.interrupt_handlers = some handler)
    (hc : dictLookup interrupt_type t.interrupt_stats = some c) :
    (trigger_interrupt interrupt_type payload t ext).1.interrupt_history =
      t.interrupt_history ++ [(interrupt_type, payload)] ∧
    dictLookup interrupt_type
      (trigger_interrupt interrupt_type payload t ext).1.interrupt_stats =
      some (c + 1) ∧
    (trigger_interrupt interrupt_type payload t ext).2 = (handler payload ext).1 := by
  simp [trigger_interrupt, hh, hc, dictLookup_dictInsert]

/-- A handler that mutates the external state and then raises. -/
def raisingHandler : Nat → Nat → Nat × Bool := fun payload ext => (ext + payload, true)

def sampleTable : InterruptTable Nat Nat :=
  register_interrupt_handler "DEV_EVENT" raisingHandler ⟨[], [], []⟩

/-- Witness for C9 with a concrete raising handler. -/
theorem C9_trigger_swallows_handler_failure_witness :
    (trigger_interrupt "DEV_EVENT" 7 sampleTable 1).1.interrupt_history =
      sampleTable.interrupt_history ++ [("DEV_EVENT", 7)] ∧
    dictLookup "DEV_EVENT"
      (trigger_interrupt "DEV_EVENT" 7 sampleTable 1).1.interrupt_stats =
      some (0 + 1) ∧
    (trigger_interrupt "DEV_EVENT" 7 sampleTable 1).2 = (raisingHandler 7 1).1 :=
  C9_trigger_swallows_handler_failure Nat Nat "DEV_EVENT" 7 sampleTable 1
    raisingHandler 0 rfl rfl

/-! ## `IOManager.run` (lines 601-662): one polling step for one device

Each loop iteration walks the registered devices; for a device whose driver
is present and whose status is not `OCUPADO` it asks the scheduler for the
next request and, if one is pending, performs it synchronously, updates the
aggregate counters, appends an outcome record built from the request's
post-perform fields, and notifies every status listener with
`(device_id, io_operation, success)` — listener exceptions are swallowed, so
the model keeps the listener count and records one notification tuple per
listener.  The driver's variant dispatch (Python's dynamic method lookup)
follows the DCB's `device_type`, which matches the driver class by
construction. -/

structure OperationRecord where
  operation_id : String
  device_id : Int
  data_size_mb : ℚ
  priority : Int
  start_time : Option Nat
  completion_time : Option Nat
  status : String
  success : Bool
deriving DecidableEq, Repr

structure IOManagerState where
  operations_processed : Nat := 0
  operations_succeeded : Nat := 0
  operations_failed : Nat := 0
  total_data_mb : ℚ := 0
  operation_history : List OperationRecord := []
  notifications : List (Int × String × Bool) := []
deriving DecidableEq, Repr

def io_manager_step_device (algorithm : SchedulingAlgorithm) (fault : Bool)
    (now : Nat) (listeners : Nat) (device_id : Int) (drv : DriverState)
    (q : List IOOperation) (m : IOManagerState) :
    DriverState × List IOOperation × IOManagerState :=
  if drv.dcb.status = DeviceStatus.OCUPADO then (drv, q, m)
  else
    match get_next_operation algorithm q with
    | none => (drv, q, m)
    | some (io_operation, q₁) =>
        let m₁ := { m with operations_processed := m.operations_processed + 1 }
        let r := perform_operation drv.dcb.device_type fault now drv io_operation
        let m₂ :=
          if r.1 then
            { m₁ with
              operations_succeeded := m₁.operations_succeeded + 1,
              total_data_mb := m₁.total_data_mb + io_operation.data_size_mb }
          else
            { m₁ with operations_failed := m₁.operations_failed + 1 }
        let record : OperationRecord :=
          { operation_id := r.2.2.operation_id, device_id := device_id,
            data_size_mb := r.2.2.data_size_mb, priority := r.2.2.priority,
            start_time := r.2.2.start_time,
            completion_time := r.2.2.completion_time,
            status := r.2.2.status, success := r.1 }
        let m₃ := { m₂ with
          operation_history := m₂.operation_history ++ [record],
          notifications := m₂.notifications ++
            List.replicate listeners (device_id, r.2.2.operation_id, r.1) }
        (r.2.1, q₁, m₃)

/-! ## Claim C10 -/

/-- C10: when the loop pulls a pending request for a registered device whose
status is neither `CONECTADO` nor `OCUPADO` (disconnected, in error, …), the
request is consumed from the queue and dropped: `perform` rejects it, the
manager's processed and failed counters are incremented (succeeded and data
totals untouched), an outcome record with `success = false` is appended, and
every listener is notified with `success = false` — yet the request keeps its
`"PENDIENTE"` status forever (it reaches no terminal state), its completion
time stays unset, and the driver state is completely unchanged, so no
completion interrupt fires. -/
theorem C10_dropped_request (algorithm : SchedulingAlgorithm) (fault : Bool)
    (now : Nat) (listeners : Nat) (device_id : Int) (drv : DriverState)
    (q q₁ : List IOOperation) (io_operation : IOOperation) (m : IOManagerState)
    (hstatus : drv.dcb.status ≠ DeviceStatus.CONECTADO)
    (hbusy : drv.dcb.status ≠ DeviceStatus.OCUPADO)
    (hq : get_next_operation algorithm q = some (io_operation, q₁))
    (hpending : io_operation.status = "PENDIENTE")
    (hct : io_operation.completion_time = none) :
    io_manager_step_device algorithm fault now listeners device_id drv q m =
      (drv, q₁,
        { m with
          operations_processed := m.operations_processed + 1,
          operations_failed := m.operations_failed + 1,
          operation_history := m.operation_history ++
            [{ operation_id := io_operation.operation_id, device_id := device_id,
               data_size_mb := io_operation.data_size_mb,
               priority := io_operation.priority,
               start_time := io_operation.start_time, completion_time := none,
               status := "PENDIENTE", success := false }],
          notifications := m.notifications ++
            List.replicate listeners (device_id, io_operation.operation_id, false) }) := by
  have hrej := perform_operation_rejects drv.dcb.device_type fault now drv
    io_operation hstatus
  simp [io_manager_step_device, hbusy, hq, hrej, hpending, hct]

/-- Witness for C10: the disconnected block driver with one pending request
under FIFO, one listener, a fresh manager state. -/
theorem C10_dropped_request_witness :
    io_manager_step_device .FIFO false 0 1 1 disconnectedDriver [sampleOp] {} =
      (disconnectedDriver, [],
        { operations_processed := 0 + 1,
          operations_failed := 0 + 1,
          operation_history := [] ++
            [{ operation_id := sampleOp.operation_id, device_id := 1,
               data_size_mb := sampleOp.data_size_mb,
               priority := sampleOp.priority,
               start_time := sampleOp.start_time, completion_time := none,
               status := "PENDIENTE", success := false }],
          notifications := [] ++
            List.replicate 1 (1, sampleOp.operation_id, false) }) := by
  have h := C10_dropped_request .FIFO false 0 1 1 disconnectedDriver [sampleOp] []
    sampleOp {} (by decide) (by decide) rfl rfl rfl
  simpa using h
